import Mathlib

/-!
Shallow embedding of the outbound Telegram dispatch queue
(`src/services/telegram.ts`) and proofs of the specification's
testable properties about it.

The embedding models:
* `escapeHtml`    — the sequential global character replacements;
* `formatMessage` — the HTML message template (the locale date rendering,
  an external library call, is passed in as a function parameter);
* `sendNotification` / `processQueue` — the FIFO queue, rate limiter,
  and retry policy, with wall-clock time modelled as a rational number
  and the outcome of each send attempt supplied by an environment list.
-/

/-- One appointment record, as used by `telegram.ts`.  The field set and
optionality mirror the accesses in the source: `visa_category`,
`visa_type`, `last_available_date` and `tracking_count` are guarded with
`|| default` fallbacks there, the remaining fields are used directly. -/
structure VisaAppointment where
  id : Nat
  center : String
  country_code : String
  mission_code : String
  visa_category : Option String
  visa_type : Option String
  status : String
  last_available_date : Option String
  tracking_count : Option Nat
  last_checked_at : String
deriving Repr, DecidableEq

/-- The double-quote character (escaped by `escapeHtml`). -/
def quoteChar : Char := Char.ofNat 34

/-- The single-quote character (escaped by `escapeHtml`). -/
def aposChar : Char := Char.ofNat 39

/-- Replacement text for the ampersand. -/
def ampEnt : List Char := ['&', 'a', 'm', 'p', ';']

/-- Replacement text for the less-than sign. -/
def ltEnt : List Char := ['&', 'l', 't', ';']

/-- Replacement text for the greater-than sign. -/
def gtEnt : List Char := ['&', 'g', 't', ';']

/-- Replacement text for the double quote. -/
def quotEnt : List Char := ['&', 'q', 'u', 'o', 't', ';']

/-- Replacement text for the single quote. -/
def aposEnt : List Char := ['&', '#', '3', '9', ';']

/-- JavaScript `text.replace(/c/g, rep)` for a single-character pattern:
replace every occurrence of `c` by `rep`. -/
def replaceChar (c : Char) (rep : List Char) (l : List Char) : List Char :=
  l.flatMap fun d => if d = c then rep else [d]

/-- The five sequential replacements of `escapeHtml`, in source order
(`&` first, then `<`, `>`, `"`, the single quote). -/
def escapeHtmlList (l : List Char) : List Char :=
  replaceChar aposChar aposEnt
    (replaceChar quoteChar quotEnt
      (replaceChar '>' gtEnt
        (replaceChar '<' ltEnt
          (replaceChar '&' ampEnt l))))

/-- `escapeHtml` from the source: empty input short-circuits to `""`,
otherwise the five global replacements are applied in order. -/
def escapeHtml (s : String) : String :=
  if s.isEmpty then "" else String.mk (escapeHtmlList s.data)

/-- Specification-level single-pass escape of one character: each of the
five markup characters maps to its entity, any other character is kept
unchanged.  Used to characterise `escapeHtml`. -/
def escCharSpec (c : Char) : List Char :=
  if c = '&' then ampEnt
  else if c = '<' then ltEnt
  else if c = '>' then gtEnt
  else if c = quoteChar then quotEnt
  else if c = aposChar then aposEnt
  else [c]

/-- The placeholder rendered for absent optional fields. -/
def placeholder : String := "Belirtilmemiş"

/-- JavaScript `o || d` for an optional string: `undefined`/`null` and
the empty string are falsy and yield the default. -/
def jsOrStr (o : Option String) (d : String) : String :=
  match o with
  | none => d
  | some s => if s = "" then d else s

/-- JavaScript `o || d` for an optional number (`0` is falsy). -/
def jsOrNat (o : Option Nat) (d : Nat) : Nat :=
  match o with
  | none => d
  | some n => if n = 0 then d else n

/-- Status emoji selection of `formatMessage`. -/
def statusEmoji (a : VisaAppointment) : String :=
  if a.status = "open" then "✅"
  else if a.status = "waitlist_open" then "⏳"
  else "❓"

/-- Status text selection of `formatMessage`. -/
def statusText (a : VisaAppointment) : String :=
  if a.status = "open" then "Açık"
  else if a.status = "waitlist_open" then "Bekleme Listesi Açık"
  else a.status

/-- JavaScript `String.prototype.toUpperCase`, restricted to the
per-character uppercase map. -/
def jsToUpperCase (s : String) : String := String.map Char.toUpper s

/-- The rendered center field: `escapeHtml(appointment.center)` —
note there is no placeholder fallback for this field in the source. -/
def renderedCenter (a : VisaAppointment) : String := escapeHtml a.center

/-- The rendered country code field. -/
def renderedCountry (a : VisaAppointment) : String :=
  escapeHtml (jsToUpperCase a.country_code)

/-- The rendered mission code field. -/
def renderedMission (a : VisaAppointment) : String :=
  escapeHtml (jsToUpperCase a.mission_code)

/-- The rendered visa category field, with its placeholder fallback. -/
def renderedCategory (a : VisaAppointment) : String :=
  escapeHtml (jsOrStr a.visa_category placeholder)

/-- The rendered visa type field, with its placeholder fallback. -/
def renderedType (a : VisaAppointment) : String :=
  escapeHtml (jsOrStr a.visa_type placeholder)

/-- The rendered last-available-date field, with its placeholder fallback. -/
def renderedLastDate (a : VisaAppointment) : String :=
  escapeHtml (jsOrStr a.last_available_date placeholder)

/-- The rendered tracking counter (`tracking_count || 0`). -/
def renderedTracking (a : VisaAppointment) : String :=
  toString (jsOrNat a.tracking_count 0)

/-- The rendered last-checked field; `dateFmt` stands for the external
`new Date(...).toLocaleString('tr-TR', ...)` call. -/
def renderedLastChecked (dateFmt : String → String) (a : VisaAppointment) : String :=
  escapeHtml (dateFmt a.last_checked_at)

/-- `formatMessage` from the source: the HTML template with every
interpolation spelled out. -/
def formatMessage (dateFmt : String → String) (a : VisaAppointment) : String :=
  "<b>" ++ statusEmoji a ++ " YENİ RANDEVU DURUMU</b>\n\n🏢 <b>Merkez:</b> "
    ++ renderedCenter a
    ++ "\n🌍 <b>Ülke/Misyon:</b> " ++ renderedCountry a ++ " → " ++ renderedMission a
    ++ "\n🛂 <b>Kategori:</b> " ++ renderedCategory a
    ++ "\n📄 <b>Tip:</b> " ++ renderedType a
    ++ "\n🚦 <b>Durum:</b> " ++ statusEmoji a ++ " " ++ escapeHtml (statusText a)
    ++ "\n🗓️ <b>Son Müsait Tarih:</b> " ++ renderedLastDate a
    ++ "\n📊 <b>Takip Sayısı:</b> " ++ renderedTracking a
    ++ "\n⏰ <b>Son Kontrol:</b> " ++ renderedLastChecked dateFmt a
    ++ "\n\n<i>Bu randevu otomatik olarak tespit edilmiştir.</i>"

/-- The message substring that marks an entity-parse rejection.  (Built
character by character because it contains a single quote.) -/
def parseEntitiesMsg : String :=
  String.mk ['c', 'a', 'n', Char.ofNat 39, 't', ' ', 'p', 'a', 'r', 's', 'e',
    ' ', 'e', 'n', 't', 'i', 't', 'i', 'e', 's']

/-- The message substring that marks a bad-request rejection. -/
def badRequestMsg : String := "Bad Request"

/-- JavaScript `s.includes(pat)`: `pat` occurs as a contiguous substring
of `s`. -/
def jsIncludes (s pat : String) : Bool := decide (pat.data <:+: s.data)

/-- The retry condition of `processQueue` (line 135 of the source): the
failed message is re-queued exactly when the error message contains
neither rejection substring. -/
def requeueCond (msg : String) : Bool :=
  !jsIncludes msg parseEntitiesMsg && !jsIncludes msg badRequestMsg

/-- Configuration consumed by the dispatcher: `rateLimit` is
`config.telegram.rateLimit` (sends per minute), `retryAfter` is
`config.telegram.retryAfter` (the pause after a transient failure, ms). -/
structure DispatchConfig where
  rateLimit : ℚ
  retryAfter : ℚ
deriving Repr, DecidableEq

/-- The outcome the external endpoint produces for one send attempt:
either success or failure with an error message, together with how long
the attempt takes (ms). -/
inductive SendOutcome where
  | success : ℚ → SendOutcome
  | failure : String → ℚ → SendOutcome
deriving Repr, DecidableEq

/-- The duration of an outcome. -/
def durOf : SendOutcome → ℚ
  | .success dur => dur
  | .failure _ dur => dur

/-- Whether an outcome is a success. -/
def isSuccess : SendOutcome → Bool
  | .success _ => true
  | .failure _ _ => false

/-- Environment of one drain-loop iteration: `gap` is the wall-clock
time that passes before `Date.now()` is read at the top of the
iteration, `outcome` is what the send attempt returns. -/
structure IterEnv where
  gap : ℚ
  outcome : SendOutcome
deriving Repr, DecidableEq

/-- Dispatcher state.  `messageQueue`, `lastMessageSentAt` and
`isProcessingQueue` are the fields of `TelegramService`; `clock` is the
wall clock (ms); `sentLog` records each successful send with its
completion time; `attemptLog` records every send attempt. -/
structure DState where
  messageQueue : List VisaAppointment
  lastMessageSentAt : ℚ
  isProcessingQueue : Bool
  clock : ℚ
  sentLog : List (VisaAppointment × ℚ)
  attemptLog : List VisaAppointment
deriving Repr, DecidableEq

/-- `requiredDelay` as computed on line 101: `(60 / rateLimit) * 1000`. -/
def requiredDelay (cfg : DispatchConfig) : ℚ := 60 / cfg.rateLimit * 1000

/-- The body of the `while` loop of `processQueue`, one environment
entry per iteration.  Each iteration shifts the front of the queue,
waits out the rate limiter, attempts the send, and then: on success
records the send and updates `lastMessageSentAt`; on a transient
failure unshifts the event back to the front, sleeps `retryAfter` and
breaks; on a content error drops the event and continues.  When the
queue empties the running flag is cleared.  An empty environment with a
non-empty queue ends the model run with the state as is. -/
def processQueueLoop (cfg : DispatchConfig) : List IterEnv → DState → DState
  | [], s =>
    match s.messageQueue with
    | [] => { s with isProcessingQueue := false }
    | _ :: _ => s
  | it :: env, s =>
    match s.messageQueue with
    | [] => { s with isProcessingQueue := false }
    | a :: rest =>
      let now := s.clock + it.gap
      let timeSince := now - s.lastMessageSentAt
      let wait := if timeSince < requiredDelay cfg then requiredDelay cfg - timeSince else 0
      match it.outcome with
      | .success dur =>
        processQueueLoop cfg env
          { s with
            messageQueue := rest
            lastMessageSentAt := now + wait + dur
            clock := now + wait + dur
            sentLog := s.sentLog ++ [(a, now + wait + dur)]
            attemptLog := s.attemptLog ++ [a] }
      | .failure msg dur =>
        if requeueCond msg then
          { s with
            messageQueue := a :: rest
            isProcessingQueue := false
            clock := now + wait + dur + cfg.retryAfter
            attemptLog := s.attemptLog ++ [a] }
        else
          processQueueLoop cfg env
            { s with
              messageQueue := rest
              clock := now + wait + dur
              attemptLog := s.attemptLog ++ [a] }

/-- `processQueue`: sets the running flag and drains. -/
def processQueue (cfg : DispatchConfig) (env : List IterEnv) (s : DState) : DState :=
  processQueueLoop cfg env { s with isProcessingQueue := true }

/-- `sendNotification`: pushes the appointment to the back of the queue,
starts the drain loop when it is not already running, and returns `true`
immediately.  `env` is the environment the started drain will consume. -/
def sendNotification (cfg : DispatchConfig) (env : List IterEnv) (s : DState)
    (a : VisaAppointment) : DState × Bool :=
  let s2 := { s with messageQueue := s.messageQueue ++ [a] }
  if s.isProcessingQueue then (s2, true) else (processQueue cfg env s2, true)

/-- The initial dispatcher state: empty queue, `lastMessageSentAt = 0`,
not running; the wall clock starts at `t`. -/
def initState (t : ℚ) : DState :=
  { messageQueue := []
    lastMessageSentAt := 0
    isProcessingQueue := false
    clock := t
    sentLog := []
    attemptLog := [] }

def emptyCenterEvent : VisaAppointment :=
  { id := 1
    center := ""
    country_code := "nl"
    mission_code := "tr"
    visa_category := some "Schengen"
    visa_type := some "Tourism"
    status := "open"
    last_available_date := none
    tracking_count := some 3
    last_checked_at := "2025-01-01" }

def cfg0 : DispatchConfig := { rateLimit := 60, retryAfter := 5000 }

def sampleEvent (n : Nat) : VisaAppointment :=
  { id := n
    center := "Ankara"
    country_code := "nl"
    mission_code := "tr"
    visa_category := none
    visa_type := none
    status := "open"
    last_available_date := none
    tracking_count := none
    last_checked_at := "t0" }

def stRun : DState := ⟨[sampleEvent 0], 0, true, 0, [], []⟩

def stIdle1 : DState := ⟨[sampleEvent 1], 0, false, 0, [], []⟩

def stIdle2 : DState := ⟨[sampleEvent 1, sampleEvent 2], 0, false, 0, [], []⟩

def stIdle3 : DState := ⟨[sampleEvent 1, sampleEvent 2, sampleEvent 3], 0, false, 0, [], []⟩

def succEnv1 : List IterEnv := [⟨0, .success 0⟩]

def succEnv3 : List IterEnv := [⟨0, .success 0⟩, ⟨0, .success 0⟩, ⟨0, .success 0⟩]

def transientMsg : String := "network timeout"

def contentMsg : String := "Bad Request: message is too long"

def failTransEnv : List IterEnv := [⟨0, .failure transientMsg 0⟩]

theorem replaceChar_append (c : Char) (rep : List Char) (l₁ l₂ : List Char) :
    replaceChar c rep (l₁ ++ l₂) = replaceChar c rep l₁ ++ replaceChar c rep l₂ := by
  simp [replaceChar]

theorem escapeHtmlList_append (l₁ l₂ : List Char) :
    escapeHtmlList (l₁ ++ l₂) = escapeHtmlList l₁ ++ escapeHtmlList l₂ := by
  simp [escapeHtmlList, replaceChar_append]

theorem escapeHtmlList_single (c : Char) : escapeHtmlList [c] = escCharSpec c := by
  by_cases h1 : c = '&'
  · subst h1; decide
  by_cases h2 : c = '<'
  · subst h2; decide
  by_cases h3 : c = '>'
  · subst h3; decide
  by_cases h4 : c = quoteChar
  · subst h4; decide
  by_cases h5 : c = aposChar
  · subst h5; decide
  simp [escapeHtmlList, escCharSpec, replaceChar, h1, h2, h3, h4, h5]

theorem escapeHtmlList_eq_bind (l : List Char) :
    escapeHtmlList l = l.flatMap escCharSpec := by
  induction l with
  | nil => decide
  | cons d t ih =>
    have h : escapeHtmlList (d :: t) = escapeHtmlList [d] ++ escapeHtmlList t := by
      simpa using escapeHtmlList_append [d] t
    rw [h, escapeHtmlList_single, ih, List.flatMap_cons]

theorem processQueueLoop_queue_suffix (cfg : DispatchConfig) :
    ∀ (env : List IterEnv) (s : DState),
      (processQueueLoop cfg env s).messageQueue <:+ s.messageQueue := by
  intro env
  induction env with
  | nil =>
    intro ⟨q, last, flag, clk, sent, att⟩
    cases q <;> simp [processQueueLoop]
  | cons it env ih =>
    obtain ⟨gap, outcome⟩ := it
    intro ⟨q, last, flag, clk, sent, att⟩
    cases q with
    | nil => simp [processQueueLoop]
    | cons a rest =>
      cases outcome with
      | success dur =>
        simp only [processQueueLoop]
        exact (ih _).trans (List.suffix_cons a rest)
      | failure msg dur =>
        cases hr : requeueCond msg with
        | true => simp [processQueueLoop, hr]
        | false =>
          simp only [processQueueLoop, hr, Bool.false_eq_true, if_false]
          exact (ih _).trans (List.suffix_cons a rest)

theorem processQueueLoop_attemptLog (cfg : DispatchConfig) :
    ∀ (env : List IterEnv) (s : DState),
      ∃ l, (processQueueLoop cfg env s).attemptLog = s.attemptLog ++ l ∧
        ∀ a, l.count a ≤ s.messageQueue.count a := by
  intro env
  induction env with
  | nil =>
    intro ⟨q, last, flag, clk, sent, att⟩
    cases q <;> exact ⟨[], by simp [processQueueLoop], by simp⟩
  | cons it env ih =>
    obtain ⟨gap, outcome⟩ := it
    intro ⟨q, last, flag, clk, sent, att⟩
    cases q with
    | nil => exact ⟨[], by simp [processQueueLoop], by simp⟩
    | cons a rest =>
      cases outcome with
      | success dur =>
        obtain ⟨l, hl, hc⟩ := ih
          { messageQueue := rest
            lastMessageSentAt :=
              clk + gap + (if clk + gap - last < requiredDelay cfg
                then requiredDelay cfg - (clk + gap - last) else 0) + dur
            isProcessingQueue := flag
            clock :=
              clk + gap + (if clk + gap - last < requiredDelay cfg
                then requiredDelay cfg - (clk + gap - last) else 0) + dur
            sentLog := sent ++ [(a,
              clk + gap + (if clk + gap - last < requiredDelay cfg
                then requiredDelay cfg - (clk + gap - last) else 0) + dur)]
            attemptLog := att ++ [a] }
        refine ⟨a :: l, ?_, ?_⟩
        · simpa [processQueueLoop] using hl
        · intro x
          have hcx := hc x
          dsimp only at hcx
          simp only [List.count_cons]
          omega
      | failure msg dur =>
        cases hr : requeueCond msg with
        | true =>
          refine ⟨[a], by simp [processQueueLoop, hr], ?_⟩
          intro x
          simp only [List.count_cons, List.count_nil]
          omega
        | false =>
          obtain ⟨l, hl, hc⟩ := ih
            { messageQueue := rest
              lastMessageSentAt := last
              isProcessingQueue := flag
              clock :=
                clk + gap + (if clk + gap - last < requiredDelay cfg
                  then requiredDelay cfg - (clk + gap - last) else 0) + dur
              sentLog := sent
              attemptLog := att ++ [a] }
          refine ⟨a :: l, ?_, ?_⟩
          · simpa [processQueueLoop, hr] using hl
          · intro x
            have hcx := hc x
            dsimp only at hcx
            simp only [List.count_cons]
            omega

theorem processQueueLoop_allSuccess (cfg : DispatchConfig) :
    ∀ (env : List IterEnv) (s : DState),
      (∀ it ∈ env, isSuccess it.outcome = true) →
      s.messageQueue.length ≤ env.length →
      (processQueueLoop cfg env s).sentLog.map Prod.fst =
        s.sentLog.map Prod.fst ++ s.messageQueue := by
  intro env
  induction env with
  | nil =>
    intro ⟨q, last, flag, clk, sent, att⟩ _ hlen
    cases q with
    | nil => simp [processQueueLoop]
    | cons a rest => simp at hlen
  | cons it env ih =>
    obtain ⟨gap, outcome⟩ := it
    intro ⟨q, last, flag, clk, sent, att⟩ hsucc hlen
    cases q with
    | nil => simp [processQueueLoop]
    | cons a rest =>
      cases outcome with
      | success dur =>
        simp only [processQueueLoop]
        rw [ih _ (fun x hx => hsucc x (List.mem_cons_of_mem _ hx)) (by simpa using hlen)]
        simp
      | failure msg dur =>
        have := hsucc ⟨gap, .failure msg dur⟩ (List.mem_cons_self _ _)
        simp [isSuccess] at this

theorem processQueueLoop_noSuccess (cfg : DispatchConfig) :
    ∀ (env : List IterEnv) (s : DState),
      (∀ it ∈ env, isSuccess it.outcome = false) →
      (processQueueLoop cfg env s).lastMessageSentAt = s.lastMessageSentAt ∧
        (processQueueLoop cfg env s).sentLog = s.sentLog := by
  intro env
  induction env with
  | nil =>
    intro ⟨q, last, flag, clk, sent, att⟩ _
    cases q <;> simp [processQueueLoop]
  | cons it env ih =>
    obtain ⟨gap, outcome⟩ := it
    intro ⟨q, last, flag, clk, sent, att⟩ hfail
    cases q with
    | nil => simp [processQueueLoop]
    | cons a rest =>
      cases outcome with
      | success dur =>
        have := hfail ⟨gap, .success dur⟩ (List.mem_cons_self _ _)
        simp [isSuccess] at this
      | failure msg dur =>
        cases hr : requeueCond msg with
        | true => simp [processQueueLoop, hr]
        | false =>
          simp only [processQueueLoop, hr, Bool.false_eq_true, if_false]
          exact ih _ (fun x hx => hfail x (List.mem_cons_of_mem _ hx))

theorem processQueueLoop_spacing (cfg : DispatchConfig) :
    ∀ (env : List IterEnv) (s : DState),
      (∀ it ∈ env, 0 ≤ durOf it.outcome) →
      (s.sentLog.map Prod.snd).Chain' (fun t₁ t₂ => t₁ + requiredDelay cfg ≤ t₂) →
      (∀ t ∈ (s.sentLog.map Prod.snd).getLast?, t ≤ s.lastMessageSentAt) →
      ((processQueueLoop cfg env s).sentLog.map Prod.snd).Chain'
          (fun t₁ t₂ => t₁ + requiredDelay cfg ≤ t₂) ∧
        ∀ t ∈ ((processQueueLoop cfg env s).sentLog.map Prod.snd).getLast?,
          t ≤ (processQueueLoop cfg env s).lastMessageSentAt := by
  intro env
  induction env with
  | nil =>
    intro ⟨q, last, flag, clk, sent, att⟩ _ hchain hlast
    cases q <;> exact ⟨hchain, hlast⟩
  | cons it env ih =>
    obtain ⟨gap, outcome⟩ := it
    intro ⟨q, last, flag, clk, sent, att⟩ hdurs hchain hlast
    cases q with
    | nil => exact ⟨hchain, hlast⟩
    | cons a rest =>
      cases outcome with
      | success dur =>
        have hdur0 : (0 : ℚ) ≤ dur := by
          simpa [durOf] using hdurs ⟨gap, .success dur⟩ (List.mem_cons_self _ _)
        have hT : last + requiredDelay cfg ≤
            clk + gap + (if clk + gap - last < requiredDelay cfg
              then requiredDelay cfg - (clk + gap - last) else 0) + dur := by
          by_cases hw : clk + gap - last < requiredDelay cfg
          · rw [if_pos hw]; linarith
          · rw [if_neg hw]
            have hge := not_lt.mp hw
            linarith
        simp only [processQueueLoop]
        refine ih _ (fun x hx => hdurs x (List.mem_cons_of_mem _ hx)) ?_ ?_
        · rw [List.map_append]
          refine hchain.append (List.chain'_singleton _) ?_
          intro x hx y hy
          simp only [List.map_cons, List.map_nil, List.head?_cons, Option.mem_some_iff] at hy
          have := hlast x hx
          rw [← hy]
          linarith
        · rw [List.map_append]
          intro t ht
          simp only [List.map_cons, List.map_nil, List.getLast?_concat,
            Option.mem_some_iff] at ht
          subst ht
          exact le_refl _
      | failure msg dur =>
        cases hr : requeueCond msg with
        | true =>
          simp only [processQueueLoop, hr, if_true]
          exact ⟨hchain, hlast⟩
        | false =>
          simp only [processQueueLoop, hr, Bool.false_eq_true, if_false]
          exact ih _ (fun x hx => hdurs x (List.mem_cons_of_mem _ hx)) hchain hlast

theorem requiredDelay_eq (cfg : DispatchConfig) :
    requiredDelay cfg = 60000 / cfg.rateLimit := by
  unfold requiredDelay
  rw [div_mul_eq_mul_div]
  norm_num

theorem sendNotification_fold (cfg : DispatchConfig) (envE : List IterEnv) :
    ∀ (es : List VisaAppointment) (s : DState), s.isProcessingQueue = true →
      (es.foldl (fun st a => (sendNotification cfg envE st a).1) s).messageQueue
          = s.messageQueue ++ es ∧
        (es.foldl (fun st a => (sendNotification cfg envE st a).1) s).isProcessingQueue
          = true := by
  intro es
  induction es with
  | nil =>
    intro s h
    exact ⟨by simp, h⟩
  | cons a es ih =>
    intro s h
    have step : (sendNotification cfg envE s a).1
        = { s with messageQueue := s.messageQueue ++ [a] } := by
      simp [sendNotification, h]
    simp only [List.foldl_cons, step]
    obtain ⟨h1, h2⟩ := ih { s with messageQueue := s.messageQueue ++ [a] } h
    refine ⟨?_, h2⟩
    rw [h1]
    simp

/-- C1: for every sequence of enqueue (`sendNotification`) calls the
events are appended to the back of the queue in call order, and a drain
pass in which every send attempt succeeds delivers the queued events to
the endpoint in exactly that order (FIFO). -/
theorem C1_fifo_order (cfg : DispatchConfig) (envE env : List IterEnv) (s : DState)
    (es : List VisaAppointment)
    (hrun : s.isProcessingQueue = true)
    (hsucc : ∀ it ∈ env, isSuccess it.outcome = true)
    (hlen : s.messageQueue.length ≤ env.length) :
    (es.foldl (fun st a => (sendNotification cfg envE st a).1) s).messageQueue
        = s.messageQueue ++ es ∧
      (processQueue cfg env s).sentLog.map Prod.fst
        = s.sentLog.map Prod.fst ++ s.messageQueue := by
  refine ⟨(sendNotification_fold cfg envE es s hrun).1, ?_⟩
  exact processQueueLoop_allSuccess cfg env { s with isProcessingQueue := true } hsucc hlen

/-- C2: `requiredDelay` is `60000 / ratePerMinute` ms, and in any drain
run starting from an empty send log the completion times of consecutive
successful sends are at least `60000 / ratePerMinute` ms apart. -/
theorem C2_rate_bound (cfg : DispatchConfig) (env : List IterEnv) (s : DState)
    (hdurs : ∀ it ∈ env, 0 ≤ durOf it.outcome)
    (hlog : s.sentLog = []) :
    requiredDelay cfg = 60000 / cfg.rateLimit ∧
      ((processQueue cfg env s).sentLog.map Prod.snd).Chain'
        (fun t₁ t₂ => t₁ + 60000 / cfg.rateLimit ≤ t₂) := by
  have hd := requiredDelay_eq cfg
  refine ⟨hd, ?_⟩
  have h := processQueueLoop_spacing cfg env { s with isProcessingQueue := true } hdurs
    (by simp [hlog]) (by simp [hlog])
  rw [← hd]
  exact h.1

/-- C7: enqueue (`sendNotification`) appends the event to the back of
the queue, starts the drain loop exactly when it is not already
running, and always returns the constant acknowledgment `true`,
whatever the delivery outcomes in the environment are. -/
theorem C7_enqueue_contract (cfg : DispatchConfig) (env : List IterEnv) (s : DState)
    (a : VisaAppointment) :
    (sendNotification cfg env s a).2 = true ∧
      (s.isProcessingQueue = true →
        (sendNotification cfg env s a).1
          = { s with messageQueue := s.messageQueue ++ [a] }) ∧
      (s.isProcessingQueue = false →
        (sendNotification cfg env s a).1
          = processQueue cfg env { s with messageQueue := s.messageQueue ++ [a] }) := by
  refine ⟨?_, ?_, ?_⟩
  · cases hf : s.isProcessingQueue <;> simp [sendNotification, hf]
  · intro h; simp [sendNotification, h]
  · intro h; simp [sendNotification, h]

/-- C10: a drain run in which no send attempt succeeds leaves
`lastMessageSentAt` and the log of successful sends unchanged — failed
and dropped events consume no rate-limit budget. -/
theorem C10_lastSent_frame (cfg : DispatchConfig) (env : List IterEnv) (s : DState)
    (hfail : ∀ it ∈ env, isSuccess it.outcome = false) :
    (processQueue cfg env s).lastMessageSentAt = s.lastMessageSentAt ∧
      (processQueue cfg env s).sentLog = s.sentLog :=
  processQueueLoop_noSuccess cfg env { s with isProcessingQueue := true } hfail

/-- C3: when a send fails with a transient (retriable) error the failed
event is reinserted at the front of the queue, the loop sleeps the
configured `retryAfter` pause, the drain pass stops (the running flag
clears and the rest of the environment is never consumed), and a
subsequent `sendNotification` call restarts the drain loop on the
residual queue. -/
theorem C3_transient_retry (cfg : DispatchConfig) (gap dur : ℚ) (msg : String)
    (env2 : List IterEnv) (s : DState) (a : VisaAppointment)
    (rest : List VisaAppointment)
    (hq : s.messageQueue = a :: rest)
    (htrans : requeueCond msg = true) :
    (processQueue cfg (⟨gap, .failure msg dur⟩ :: env2) s).messageQueue = a :: rest ∧
      (processQueue cfg (⟨gap, .failure msg dur⟩ :: env2) s).isProcessingQueue = false ∧
      (processQueue cfg (⟨gap, .failure msg dur⟩ :: env2) s).clock
        = s.clock + gap
            + (if s.clock + gap - s.lastMessageSentAt < requiredDelay cfg
                then requiredDelay cfg - (s.clock + gap - s.lastMessageSentAt) else 0)
            + dur + cfg.retryAfter ∧
      (∀ env3, processQueue cfg (⟨gap, .failure msg dur⟩ :: env3) s
          = processQueue cfg (⟨gap, .failure msg dur⟩ :: env2) s) ∧
      (∀ b env3,
        (sendNotification cfg env3
            (processQueue cfg (⟨gap, .failure msg dur⟩ :: env2) s) b).1
          = processQueue cfg env3
              { processQueue cfg (⟨gap, .failure msg dur⟩ :: env2) s with
                  messageQueue := (a :: rest) ++ [b] } ∧
        (sendNotification cfg env3
            (processQueue cfg (⟨gap, .failure msg dur⟩ :: env2) s) b).2 = true) := by
  obtain ⟨q, last, flag, clk, sent, att⟩ := s
  dsimp only at hq
  subst hq
  refine ⟨?_, ?_, ?_, ?_, ?_⟩
  · simp [processQueue, processQueueLoop, htrans]
  · simp [processQueue, processQueueLoop, htrans]
  · simp [processQueue, processQueueLoop, htrans]
  · intro env3
    simp [processQueue, processQueueLoop, htrans]
  · intro b env3
    constructor
    · simp [processQueue, processQueueLoop, htrans, sendNotification]
    · simp [processQueue, processQueueLoop, htrans, sendNotification]

/-- C4: if the event at queue position 0 fails transiently while two
events are queued behind it, it is reinserted at the front, so the next
drain attempt (here: one in which all sends succeed) processes it again
before the others, whose relative order is unchanged. -/
theorem C4_retry_requeue_order (cfg : DispatchConfig) (gap dur : ℚ) (msg : String)
    (env2 : List IterEnv) (s : DState) (E F G : VisaAppointment)
    (rest : List VisaAppointment)
    (hq : s.messageQueue = E :: F :: G :: rest)
    (htrans : requeueCond msg = true)
    (hsucc : ∀ it ∈ env2, isSuccess it.outcome = true)
    (hlen : (E :: F :: G :: rest).length ≤ env2.length) :
    (processQueue cfg [⟨gap, .failure msg dur⟩] s).messageQueue
        = E :: F :: G :: rest ∧
      (processQueue cfg env2
          (processQueue cfg [⟨gap, .failure msg dur⟩] s)).sentLog.map Prod.fst
        = (processQueue cfg [⟨gap, .failure msg dur⟩] s).sentLog.map Prod.fst
            ++ (E :: F :: G :: rest) := by
  obtain ⟨q, last, flag, clk, sent, att⟩ := s
  dsimp only at hq
  subst hq
  constructor
  · simp [processQueue, processQueueLoop, htrans]
  · have hr : processQueue cfg [⟨gap, .failure msg dur⟩]
        (⟨E :: F :: G :: rest, last, flag, clk, sent, att⟩ : DState)
        = ⟨E :: F :: G :: rest, last, false,
            clk + gap + (if clk + gap - last < requiredDelay cfg
              then requiredDelay cfg - (clk + gap - last) else 0) + dur + cfg.retryAfter,
            sent, att ++ [E]⟩ := by
      simp [processQueue, processQueueLoop, htrans]
    rw [hr]
    exact processQueueLoop_allSuccess cfg env2 _ hsucc hlen

/-- C5: an event whose send fails with a content/format error is
dropped: the drain continues immediately with the rest of the queue and
no `retryAfter` pause in the clock, the event never reappears in the
queue, and exactly one send attempt is made for it. -/
theorem C5_content_drop (cfg : DispatchConfig) (gap dur : ℚ) (msg : String)
    (env2 : List IterEnv) (s : DState) (a : VisaAppointment)
    (rest : List VisaAppointment)
    (hq : s.messageQueue = a :: rest)
    (hcontent : requeueCond msg = false)
    (hnotin : a ∉ rest)
    (hnoatt : a ∉ s.attemptLog) :
    processQueue cfg (⟨gap, .failure msg dur⟩ :: env2) s
        = processQueueLoop cfg env2
            { s with
                messageQueue := rest
                isProcessingQueue := true
                clock := s.clock + gap
                  + (if s.clock + gap - s.lastMessageSentAt < requiredDelay cfg
                      then requiredDelay cfg - (s.clock + gap - s.lastMessageSentAt) else 0)
                  + dur
                attemptLog := s.attemptLog ++ [a] } ∧
      a ∉ (processQueue cfg (⟨gap, .failure msg dur⟩ :: env2) s).messageQueue ∧
      (processQueue cfg (⟨gap, .failure msg dur⟩ :: env2) s).attemptLog.count a = 1 := by
  obtain ⟨q, last, flag, clk, sent, att⟩ := s
  dsimp only at hq hnoatt
  subst hq
  have hstep : processQueue cfg (⟨gap, .failure msg dur⟩ :: env2)
      (⟨a :: rest, last, flag, clk, sent, att⟩ : DState)
      = processQueueLoop cfg env2
          (⟨rest, last, true,
            clk + gap + (if clk + gap - last < requiredDelay cfg
              then requiredDelay cfg - (clk + gap - last) else 0) + dur,
            sent, att ++ [a]⟩ : DState) := by
    simp [processQueue, processQueueLoop, hcontent]
  refine ⟨hstep, ?_, ?_⟩
  · rw [hstep]
    intro hmem
    exact hnotin ((processQueueLoop_queue_suffix cfg env2 _).subset hmem)
  · rw [hstep]
    obtain ⟨l, hl, hc⟩ := processQueueLoop_attemptLog cfg env2
      (⟨rest, last, true,
        clk + gap + (if clk + gap - last < requiredDelay cfg
          then requiredDelay cfg - (clk + gap - last) else 0) + dur,
        sent, att ++ [a]⟩ : DState)
    dsimp only at hl
    rw [hl]
    have hca : l.count a = 0 := by
      have := hc a
      dsimp only at this
      have hz : rest.count a = 0 := List.count_eq_zero.mpr hnotin
      omega
    have hatt : att.count a = 0 := List.count_eq_zero.mpr hnoatt
    simp [List.count_append, hca, hatt]

/-- C6: the retry-versus-drop decision depends on the error message
string alone: `jsIncludes` is exactly substring containment, and a
failed event is dropped from the queue precisely when the message
contains one of the two rejection substrings, and kept at the front of
the queue (for retry) for every other message. -/
theorem C6_error_classification (cfg : DispatchConfig) (gap dur : ℚ) (msg : String)
    (s : DState) (a : VisaAppointment) (rest : List VisaAppointment)
    (hq : s.messageQueue = a :: rest) :
    (jsIncludes msg parseEntitiesMsg = true
      ↔ ∃ p q, p ++ parseEntitiesMsg.data ++ q = msg.data) ∧
    (jsIncludes msg badRequestMsg = true
      ↔ ∃ p q, p ++ badRequestMsg.data ++ q = msg.data) ∧
    ((processQueue cfg [⟨gap, .failure msg dur⟩] s).messageQueue = rest
      ↔ (jsIncludes msg parseEntitiesMsg || jsIncludes msg badRequestMsg) = true) ∧
    ((processQueue cfg [⟨gap, .failure msg dur⟩] s).messageQueue = a :: rest
      ↔ (jsIncludes msg parseEntitiesMsg || jsIncludes msg badRequestMsg) = false) := by
  obtain ⟨q, last, flag, clk, sent, att⟩ := s
  dsimp only at hq
  subst hq
  have hne : a :: rest ≠ rest := List.cons_ne_self a rest
  refine ⟨?_, ?_, ?_, ?_⟩
  · simp [jsIncludes, List.IsInfix]
  · simp [jsIncludes, List.IsInfix]
  · cases hA : jsIncludes msg parseEntitiesMsg <;>
      cases hB : jsIncludes msg badRequestMsg <;>
        simp [processQueue, processQueueLoop, requeueCond, hA, hB, hne] <;>
          cases rest <;> simp [processQueueLoop]
  · cases hA : jsIncludes msg parseEntitiesMsg <;>
      cases hB : jsIncludes msg badRequestMsg <;>
        simp [processQueue, processQueueLoop, requeueCond, hA, hB] <;>
          cases rest <;> simp_all [processQueueLoop]

/-- C8: `escapeHtml` maps each character independently — the five
markup characters are rendered only as their entity escapes and every
other character is kept unaltered — and `formatMessage` interpolates
the escaped field verbatim into the message. -/
theorem C8_escaping (str : String) (dateFmt : String → String) (a : VisaAppointment) :
    (escapeHtml str).data = str.data.flatMap escCharSpec ∧
      ∃ p q : String, formatMessage dateFmt a = p ++ escapeHtml a.center ++ q := by
  constructor
  · by_cases h : str.isEmpty
    · have he : str = "" := (String.isEmpty_iff str).mp h
      subst he
      simp [escapeHtml, h]
    · rw [escapeHtml, if_neg h]
      exact escapeHtmlList_eq_bind str.data
  · refine ⟨"<b>" ++ statusEmoji a ++ " YENİ RANDEVU DURUMU</b>\n\n🏢 <b>Merkez:</b> ",
      "\n🌍 <b>Ülke/Misyon:</b> " ++ renderedCountry a ++ " → " ++ renderedMission a
        ++ "\n🛂 <b>Kategori:</b> " ++ renderedCategory a
        ++ "\n📄 <b>Tip:</b> " ++ renderedType a
        ++ "\n🚦 <b>Durum:</b> " ++ statusEmoji a ++ " " ++ escapeHtml (statusText a)
        ++ "\n🗓️ <b>Son Müsait Tarih:</b> " ++ renderedLastDate a
        ++ "\n📊 <b>Takip Sayısı:</b> " ++ renderedTracking a
        ++ "\n⏰ <b>Son Kontrol:</b> " ++ renderedLastChecked dateFmt a
        ++ "\n\n<i>Bu randevu otomatik olarak tespit edilmiştir.</i>", ?_⟩
    simp only [formatMessage, renderedCenter, String.append_assoc]

/-- C9 (amended): for the three optional free-text fields that have a
fallback in the source — visa category, visa type, last-available-date
— an absent or empty value renders the placeholder string. -/
theorem C9_placeholder_amended (a : VisaAppointment) :
    (a.visa_category = none ∨ a.visa_category = some "" →
      renderedCategory a = placeholder) ∧
    (a.visa_type = none ∨ a.visa_type = some "" →
      renderedType a = placeholder) ∧
    (a.last_available_date = none ∨ a.last_available_date = some "" →
      renderedLastDate a = placeholder) := by
  have hesc : escapeHtml placeholder = placeholder := by decide
  refine ⟨?_, ?_, ?_⟩ <;>
    rintro (h | h) <;>
      simp [renderedCategory, renderedType, renderedLastDate, jsOrStr, h, hesc]

/-- C9 counterexample: the center field has no placeholder fallback in
the source — an event with an empty center renders the Merkez field as
empty text, so the label is immediately followed by the newline in the
formatted message. -/
theorem C9_center_renders_empty :
    renderedCenter emptyCenterEvent = "" ∧
      (renderedCenter emptyCenterEvent == placeholder) = false ∧
      ("Merkez:</b> \n🌍").data <:+: (formatMessage id emptyCenterEvent).data := by
  refine ⟨rfl, rfl, ?_⟩
  decide

theorem C1_fifo_order_witness :
    (([sampleEvent 1, sampleEvent 2]).foldl
          (fun st a => (sendNotification cfg0 [] st a).1) stRun).messageQueue
        = stRun.messageQueue ++ [sampleEvent 1, sampleEvent 2] ∧
      (processQueue cfg0 succEnv1 stRun).sentLog.map Prod.fst
        = stRun.sentLog.map Prod.fst ++ stRun.messageQueue :=
  C1_fifo_order cfg0 [] succEnv1 stRun [sampleEvent 1, sampleEvent 2] rfl
    (by decide) (by decide)

theorem C2_rate_bound_witness :
    requiredDelay cfg0 = 60000 / cfg0.rateLimit ∧
      ((processQueue cfg0 succEnv3 stIdle3).sentLog.map Prod.snd).Chain'
        (fun t₁ t₂ => t₁ + 60000 / cfg0.rateLimit ≤ t₂) :=
  C2_rate_bound cfg0 succEnv3 stIdle3 (by decide) rfl

theorem C3_transient_retry_witness :
    (processQueue cfg0 [⟨0, .failure transientMsg 0⟩] stIdle1).messageQueue
        = [sampleEvent 1] ∧
      (processQueue cfg0 [⟨0, .failure transientMsg 0⟩] stIdle1).isProcessingQueue
        = false :=
  ⟨(C3_transient_retry cfg0 0 0 transientMsg [] stIdle1 (sampleEvent 1) [] rfl
      (by decide)).1,
    (C3_transient_retry cfg0 0 0 transientMsg [] stIdle1 (sampleEvent 1) [] rfl
      (by decide)).2.1⟩

theorem C4_retry_requeue_order_witness :
    (processQueue cfg0 [⟨0, .failure transientMsg 0⟩] stIdle3).messageQueue
        = sampleEvent 1 :: sampleEvent 2 :: sampleEvent 3 :: [] ∧
      (processQueue cfg0 succEnv3
          (processQueue cfg0 [⟨0, .failure transientMsg 0⟩] stIdle3)).sentLog.map Prod.fst
        = (processQueue cfg0 [⟨0, .failure transientMsg 0⟩] stIdle3).sentLog.map Prod.fst
            ++ (sampleEvent 1 :: sampleEvent 2 :: sampleEvent 3 :: []) :=
  C4_retry_requeue_order cfg0 0 0 transientMsg succEnv3 stIdle3
    (sampleEvent 1) (sampleEvent 2) (sampleEvent 3) [] rfl (by decide) (by decide)
    (by decide)

theorem C5_content_drop_witness :
    sampleEvent 1 ∉ (processQueue cfg0 [⟨0, .failure contentMsg 0⟩] stIdle2).messageQueue ∧
      (processQueue cfg0 [⟨0, .failure contentMsg 0⟩] stIdle2).attemptLog.count
          (sampleEvent 1) = 1 :=
  ⟨(C5_content_drop cfg0 0 0 contentMsg [] stIdle2 (sampleEvent 1) [sampleEvent 2]
      rfl (by decide) (by decide) (by decide)).2.1,
    (C5_content_drop cfg0 0 0 contentMsg [] stIdle2 (sampleEvent 1) [sampleEvent 2]
      rfl (by decide) (by decide) (by decide)).2.2⟩

theorem C6_error_classification_witness :
    ((processQueue cfg0 [⟨0, .failure contentMsg 0⟩] stIdle1).messageQueue = []
      ↔ (jsIncludes contentMsg parseEntitiesMsg || jsIncludes contentMsg badRequestMsg)
          = true) ∧
    ((processQueue cfg0 [⟨0, .failure contentMsg 0⟩] stIdle1).messageQueue
        = [sampleEvent 1]
      ↔ (jsIncludes contentMsg parseEntitiesMsg || jsIncludes contentMsg badRequestMsg)
          = false) :=
  ⟨(C6_error_classification cfg0 0 0 contentMsg stIdle1 (sampleEvent 1) [] rfl).2.2.1,
    (C6_error_classification cfg0 0 0 contentMsg stIdle1 (sampleEvent 1) [] rfl).2.2.2⟩

theorem C7_enqueue_contract_witness :
    (sendNotification cfg0 [] stRun (sampleEvent 9)).2 = true ∧
      (sendNotification cfg0 [] stRun (sampleEvent 9)).1
        = { stRun with messageQueue := stRun.messageQueue ++ [sampleEvent 9] } :=
  ⟨(C7_enqueue_contract cfg0 [] stRun (sampleEvent 9)).1,
    (C7_enqueue_contract cfg0 [] stRun (sampleEvent 9)).2.1 rfl⟩

theorem C9_placeholder_amended_witness :
    renderedCategory (sampleEvent 1) = placeholder ∧
      renderedType (sampleEvent 1) = placeholder ∧
      renderedLastDate (sampleEvent 1) = placeholder :=
  ⟨(C9_placeholder_amended (sampleEvent 1)).1 (Or.inl rfl),
    (C9_placeholder_amended (sampleEvent 1)).2.1 (Or.inl rfl),
    (C9_placeholder_amended (sampleEvent 1)).2.2 (Or.inl rfl)⟩

theorem C10_lastSent_frame_witness :
    (processQueue cfg0 failTransEnv stIdle1).lastMessageSentAt
        = stIdle1.lastMessageSentAt ∧
      (processQueue cfg0 failTransEnv stIdle1).sentLog = stIdle1.sentLog :=
  C10_lastSent_frame cfg0 failTransEnv stIdle1 (by decide)
